import Mathlib

set_option linter.unusedVariables false

/-!
Shallow embedding of `src/examples/blend/main.rs` (the gfx blending example):
the fullscreen-quad vertex data, the cyclic blend-mode selector, the per-frame
event/render loop of `main`, and the error behaviour of `load_texture`.

Handles to GPU resources (buffers, texture views, samplers, render targets)
are modelled as natural numbers; rational numbers stand for the exact float
literals (-1.0, 0.0, 1.0) appearing in the source. Input events mirror the
glutin events the loop matches on; everything the loop does besides mutating
its state is recorded as an `Action` trace.
-/

namespace Blend

/-- Embeds `gfx_structure!(Vertex { pos: [f32; 2], uv: [f32; 2] })`. -/
structure Vertex where
  pos : ℚ × ℚ
  uv : ℚ × ℚ
deriving DecidableEq, Repr

/-- Embeds `Vertex::new`. -/
def Vertex.new (p : ℚ × ℚ) (u : ℚ × ℚ) : Vertex :=
  { pos := p, uv := u }

/-- Embeds the `vertex_data` array of `main`: the six vertices of the
fullscreen quad, two triangles. -/
def vertex_data : List Vertex :=
  [ Vertex.new (-1, -1) (0, 1),
    Vertex.new (1, -1) (1, 1),
    Vertex.new (1, 1) (1, 0),
    Vertex.new (-1, -1) (0, 1),
    Vertex.new (1, 1) (1, 0),
    Vertex.new (-1, 1) (0, 0) ]

/-- The vertex of `vertex_data` at position `i` (defaulting to the origin
vertex out of range). -/
def vAt (i : Nat) : Vertex :=
  vertex_data.getD i (Vertex.new (0, 0) (0, 0))

/-- Twice the signed area of the triangle `a b c`: positive exactly when the
triangle winds counter-clockwise. -/
def cross2 (a b c : ℚ × ℚ) : ℚ :=
  (b.1 - a.1) * (c.2 - a.2) - (b.2 - a.2) * (c.1 - a.1)

/-- The triangle `a b c` winds counter-clockwise. -/
def ccwTri (a b c : ℚ × ℚ) : Prop :=
  0 < cross2 a b c

instance (a b c : ℚ × ℚ) : Decidable (ccwTri a b c) := by
  unfold ccwTri; infer_instance

/-- The point `p` lies in the (closed) triangle `a b c`, for a
counter-clockwise triangle: `p` is on the left of each directed edge. -/
def inTri (a b c p : ℚ × ℚ) : Prop :=
  0 ≤ cross2 a b p ∧ 0 ≤ cross2 b c p ∧ 0 ≤ cross2 c a p

/-- Embeds the `blends` array of `main`: the fixed list of 9
(index, label) pairs, in source order. -/
def blends : List (Int × String) :=
  [ (0, "Screen"),
    (1, "Dodge"),
    (2, "Burn"),
    (3, "Overlay"),
    (4, "Multiply"),
    (5, "Add"),
    (6, "Divide"),
    (7, "Grain Extract"),
    (8, "Grain Merge") ]

/-- Embeds `blends.iter().cycle()`: a cursor over `blends`, counting how many
times `next` has been called. A fresh iterator has `k = 0`. -/
structure CycleIter where
  k : Nat
deriving DecidableEq, Repr

/-- The pair the cursor currently points at (the value the next call to
`next` will yield): `cycle` wraps modulo the list length. -/
def CycleIter.peek (c : CycleIter) : Int × String :=
  blends.getD (c.k % blends.length) (0, "")

/-- Embeds `blends_cycle.next().unwrap()`: yields the current pair and the
advanced cursor. The `unwrap` never fails because `blends` is non-empty. -/
def CycleIter.next (c : CycleIter) : (Int × String) × CycleIter :=
  (c.peek, { k := c.k + 1 })

/-- Advance the cursor by `n` calls to `next`, discarding the values. -/
def CycleIter.advanceN : CycleIter → Nat → CycleIter
  | c, 0 => c
  | c, n + 1 => (c.next.2).advanceN n

/-- Embeds `glutin::ElementState`. -/
inductive ElementState where
  | Pressed
  | Released
deriving DecidableEq, Repr

/-- The key codes the loop distinguishes: `B` (cycle), `Escape` (exit), and
a stand-in for every other `glutin::VirtualKeyCode`. -/
inductive VirtualKeyCode where
  | B
  | Escape
  | OtherKey
deriving DecidableEq, Repr

/-- The glutin events the loop matches on: keyboard input (element state,
scancode, optional key code), a close request, and a stand-in for every
other event (which the source ignores via `_ => {}`). -/
inductive Event where
  | KeyboardInput (state : ElementState) (scancode : Nat) (keycode : Option VirtualKeyCode)
  | Closed
  | OtherEvent
deriving DecidableEq, Repr

/-- Whether the render loop is still running or has exited via `break 'main`. -/
inductive LoopState where
  | Running
  | Terminated
deriving DecidableEq, Repr

/-- Embeds the `PipeData` structure of `gfx_pipeline_init!`: resource handles
plus the mutable blend-mode integer (`gfx::Global<i32>`). -/
structure PipeData where
  vbuf : Nat
  lena : Nat
  lena_sampler : Nat
  tint : Nat
  tint_sampler : Nat
  blend : Int
  out : Nat
deriving DecidableEq, Repr

/-- The fixed (non-blend) fields of `PipeData`, bundled. -/
def fixedPart (d : PipeData) : Nat × Nat × Nat × Nat × Nat × Nat :=
  (d.vbuf, d.lena, d.lena_sampler, d.tint, d.tint_sampler, d.out)

/-- Everything the loop body does besides mutating its own state, recorded
as an explicit trace entry. -/
inductive Action where
  | reset
  | printLine (line : String)
  | clearTarget (target : Nat) (color : List ℚ)
  | drawPipeline
  | submit
  | swapBuffers
  | cleanup
deriving DecidableEq, Repr

/-- The state threaded through the loop of `main`: the blend cycle cursor,
the pipe data, and whether `break 'main` has happened. -/
structure AppState where
  cycle : CycleIter
  data : PipeData
  status : LoopState
deriving DecidableEq, Repr

/-- The diagnostic line emitted by
`println!("Using \x7b\x7d blend equation", ...)` with the label quoted. -/
def diagLine (label : String) : String :=
  "Using \x27" ++ label ++ "\x27 blend equation"

/-- Embeds the setup part of `main` after resource creation: consume the
first element of the blend cycle, print its label, and build the initial
`PipeData` from the handles established at startup (the same sampler handle
is used for both sampler fields, as in the source). -/
def startup (vbuf lena tint sampler out : Nat) : AppState × List Action :=
  let blends_cycle : CycleIter := { k := 0 }
  let blend_func := blends_cycle.next.1
  ({ cycle := blends_cycle.next.2,
     data := { vbuf := vbuf, lena := lena, lena_sampler := sampler,
               tint := tint, tint_sampler := sampler,
               blend := blend_func.1, out := out },
     status := LoopState.Running },
   [Action.printLine (diagLine blend_func.2)])

/-- Embeds the `match event` inside the loop of `main`: a press of `B`
advances the cycle, prints the new label and writes the new index into
`data.blend`; a keyboard event carrying `Escape` (any element state) or a
`Closed` event does `break 'main`; everything else is ignored. -/
def handleEvent : AppState → Event → AppState × List Action
  | s, Event.KeyboardInput ElementState.Pressed _ (some VirtualKeyCode.B) =>
    let blend_func := s.cycle.next.1
    ({ s with cycle := s.cycle.next.2,
              data := { s.data with blend := blend_func.1 } },
     [Action.printLine (diagLine blend_func.2)])
  | s, Event.KeyboardInput _ _ (some VirtualKeyCode.Escape) =>
    ({ s with status := LoopState.Terminated }, [])
  | s, Event.Closed =>
    ({ s with status := LoopState.Terminated }, [])
  | s, _ => (s, [])

/-- The events matching the source's cycle arm:
`KeyboardInput(Pressed, _, Some(B))`. -/
def isCyclePress : Event → Bool
  | Event.KeyboardInput ElementState.Pressed _ (some VirtualKeyCode.B) => true
  | _ => false

/-- The events matching the source's `break 'main` arm:
`KeyboardInput(_, _, Some(Escape)) | Closed`. -/
def isTerminating : Event → Bool
  | Event.KeyboardInput _ _ (some VirtualKeyCode.Escape) => true
  | Event.Closed => true
  | _ => false

/-- How many events of a list match the cycle-key-press arm. -/
def countCyclePresses (events : List Event) : Nat :=
  (events.filter isCyclePress).length

/-- Embeds `for event in window.poll_events()`: handle the pending events in
delivery order, stopping immediately when an event causes `break 'main`
(events after it are not handled). -/
def drainEvents : AppState → List Event → AppState × List Action
  | s, [] => (s, [])
  | s, e :: rest =>
    if (handleEvent s e).1.status = LoopState.Terminated then
      handleEvent s e
    else
      ((drainEvents (handleEvent s e).1 rest).1,
       (handleEvent s e).2 ++ (drainEvents (handleEvent s e).1 rest).2)

/-- The frame actions of the loop body, in source order: clear the output
target to `[0.0; 4]`, draw the pipeline, submit, swap buffers, cleanup. -/
def frameActions (d : PipeData) : List Action :=
  [ Action.clearTarget d.out [0, 0, 0, 0],
    Action.drawPipeline,
    Action.submit,
    Action.swapBuffers,
    Action.cleanup ]

/-- One iteration of `'main: loop` from a running state: reset the encoder,
drain the pending events, and — unless the drain hit `break 'main` — issue
the frame actions against the (possibly updated) pipe data. -/
def runIteration (s : AppState) (events : List Event) : AppState × List Action :=
  if (drainEvents s events).1.status = LoopState.Terminated then
    ((drainEvents s events).1, Action.reset :: (drainEvents s events).2)
  else
    ((drainEvents s events).1,
     Action.reset :: (drainEvents s events).2 ++ frameActions (drainEvents s events).1.data)

/-- Run the loop over a finite sequence of per-iteration pending-event
batches; once terminated, no further iteration runs and no further action
is performed. -/
def runLoop : AppState → List (List Event) → AppState × List Action
  | s, [] => (s, [])
  | s, b :: rest =>
    if s.status = LoopState.Terminated then (s, [])
    else
      ((runLoop (runIteration s b).1 rest).1,
       (runIteration s b).2 ++ (runLoop (runIteration s b).1 rest).2)

/-- Outcome of a call whose body may `panic` (the `.unwrap()` calls inside
`load_texture`) or (per its signature) return an error value. -/
inductive LoadOutcome (α : Type) where
  | ok (a : α)
  | panicked (msg : String)
  | err (e : String)
deriving DecidableEq, Repr

/-- Whether an outcome is an `Err` return. -/
def LoadOutcome.isErr {α : Type} : LoadOutcome α → Bool
  | LoadOutcome.err _ => true
  | _ => false

/-- The fallible collaborators `load_texture` relies on, abstracted: whether
the image decodes, whether the device accepts the texture creation/upload,
whether the view derivation succeeds, and a counter for fresh resource
handles. -/
structure Factory where
  nextHandle : Nat
  decodeOk : Bool
  createOk : Bool
  viewOk : Bool
deriving DecidableEq, Repr

/-- Embeds `load_texture`: `image::load(..).unwrap()`,
`factory.create_new_texture_with_data(..).unwrap()` and
`factory.view_texture_as_shader_resource(..).unwrap()` in order. Each
`.unwrap()` aborts the process (panic with a diagnostic) on failure, so the
declared `Result<_, String>` error channel (`LoadOutcome.err`) is never
produced; on success the raw texture takes handle `nextHandle`, the view
handle `nextHandle + 1`, and `Ok(view)` is returned together with the
factory advanced past both fresh handles. -/
def load_texture (f : Factory) (data : List Nat) : LoadOutcome (Nat × Factory) :=
  if f.decodeOk = false then
    LoadOutcome.panicked "image decode failed"
  else if f.createOk = false then
    LoadOutcome.panicked "texture creation failed"
  else if f.viewOk = false then
    LoadOutcome.panicked "view creation failed"
  else
    LoadOutcome.ok (f.nextHandle + 1, { f with nextHandle := f.nextHandle + 2 })

/-! Helper lemmas about the event handler and the cycle cursor. -/

theorem CycleIter.peek_fst (c : CycleIter) :
    (c.peek).1 = ((c.k % 9 : Nat) : Int) := by
  unfold CycleIter.peek
  have hl : blends.length = 9 := rfl
  rw [hl]
  have hb : c.k % 9 < 9 := Nat.mod_lt _ (by norm_num)
  generalize hg : c.k % 9 = r at hb ⊢
  interval_cases r <;> rfl

theorem handleEvent_press (s : AppState) (sc : Nat) :
    handleEvent s (Event.KeyboardInput ElementState.Pressed sc (some VirtualKeyCode.B)) =
      ({ s with cycle := { k := s.cycle.k + 1 },
                data := { s.data with blend := (s.cycle.peek).1 } },
       [Action.printLine (diagLine (s.cycle.peek).2)]) := rfl

theorem isCyclePress_spec (e : Event) (h : isCyclePress e = true) :
    ∃ sc, e = Event.KeyboardInput ElementState.Pressed sc (some VirtualKeyCode.B) := by
  cases e with
  | KeyboardInput st sc key =>
    cases st with
    | Pressed =>
      rcases key with _ | k
      · simp [isCyclePress] at h
      · cases k
        · exact ⟨sc, rfl⟩
        · simp [isCyclePress] at h
        · simp [isCyclePress] at h
    | Released => simp [isCyclePress] at h
  | Closed => simp [isCyclePress] at h
  | OtherEvent => simp [isCyclePress] at h

theorem handleEvent_term (s : AppState) (e : Event) (h : isTerminating e = true) :
    handleEvent s e = ({ s with status := LoopState.Terminated }, []) := by
  cases e with
  | KeyboardInput st sc key =>
    rcases key with _ | k
    · simp [isTerminating] at h
    · cases k with
      | B => simp [isTerminating] at h
      | Escape => cases st <;> rfl
      | OtherKey => simp [isTerminating] at h
  | Closed => rfl
  | OtherEvent => simp [isTerminating] at h

theorem handleEvent_ignore (s : AppState) (e : Event)
    (h1 : isCyclePress e = false) (h2 : isTerminating e = false) :
    handleEvent s e = (s, []) := by
  cases e with
  | KeyboardInput st sc key =>
    rcases key with _ | k
    · cases st <;> rfl
    · cases k with
      | B =>
        cases st with
        | Pressed => simp [isCyclePress] at h1
        | Released => rfl
      | Escape => simp [isTerminating] at h2
      | OtherKey => cases st <;> rfl
  | Closed => simp [isTerminating] at h2
  | OtherEvent => rfl

theorem handleEvent_acts (s : AppState) (e : Event) :
    (handleEvent s e).2 = [] ∨ ∃ m, (handleEvent s e).2 = [Action.printLine m] := by
  rcases hc : isCyclePress e with _ | _
  · rcases ht : isTerminating e with _ | _
    · rw [handleEvent_ignore s e hc ht]; exact Or.inl rfl
    · rw [handleEvent_term s e ht]; exact Or.inl rfl
  · obtain ⟨sc, rfl⟩ := isCyclePress_spec e hc
    rw [handleEvent_press]
    exact Or.inr ⟨_, rfl⟩

theorem handleEvent_status_press (s : AppState) (e : Event) (h : isCyclePress e = true) :
    (handleEvent s e).1.status = s.status := by
  obtain ⟨sc, rfl⟩ := isCyclePress_spec e h
  rw [handleEvent_press]

theorem countCyclePresses_cons (e : Event) (rest : List Event) :
    countCyclePresses (e :: rest) =
      (if isCyclePress e then 1 else 0) + countCyclePresses rest := by
  unfold countCyclePresses
  rcases h : isCyclePress e with _ | _ <;> simp [List.filter_cons, h] <;> omega

theorem countCyclePresses_append (xs ys : List Event) :
    countCyclePresses (xs ++ ys) = countCyclePresses xs + countCyclePresses ys := by
  unfold countCyclePresses
  simp [List.filter_append]

theorem handleEvent_cycle_press (s : AppState) (e : Event) (h : isCyclePress e = true) :
    (handleEvent s e).1.cycle.k = s.cycle.k + 1 ∧
    (handleEvent s e).1.data.blend = ((s.cycle.k % 9 : Nat) : Int) ∧
    (handleEvent s e).1.status = s.status ∧
    fixedPart (handleEvent s e).1.data = fixedPart s.data := by
  obtain ⟨sc, rfl⟩ := isCyclePress_spec e h
  rw [handleEvent_press]
  refine ⟨rfl, ?_, rfl, rfl⟩
  exact CycleIter.peek_fst s.cycle

theorem handleEvent_not_press_state (s : AppState) (e : Event) (h : isCyclePress e = false) :
    (handleEvent s e).1.cycle = s.cycle ∧ (handleEvent s e).1.data = s.data := by
  rcases ht : isTerminating e with _ | _
  · rw [handleEvent_ignore s e h ht]; exact ⟨rfl, rfl⟩
  · rw [handleEvent_term s e ht]; exact ⟨rfl, rfl⟩

theorem runIteration_fst (s : AppState) (events : List Event) :
    (runIteration s events).1 = (drainEvents s events).1 := by
  unfold runIteration; split <;> rfl

theorem runIteration_of_term (s : AppState) (events : List Event)
    (h : (drainEvents s events).1.status = LoopState.Terminated) :
    runIteration s events =
      ((drainEvents s events).1, Action.reset :: (drainEvents s events).2) := by
  unfold runIteration; rw [if_pos h]

theorem runIteration_of_run (s : AppState) (events : List Event)
    (h : (drainEvents s events).1.status = LoopState.Running) :
    runIteration s events =
      ((drainEvents s events).1,
       Action.reset :: (drainEvents s events).2 ++
         frameActions (drainEvents s events).1.data) := by
  unfold runIteration
  rw [if_neg (by rw [h]; simp)]

theorem runLoop_of_terminated (s : AppState)
    (h : s.status = LoopState.Terminated) (batches : List (List Event)) :
    runLoop s batches = (s, []) := by
  cases batches with
  | nil => rfl
  | cons b rest => simp [runLoop, h]

theorem drainEvents_acts (es : List Event) :
    ∀ (s : AppState), ∀ a ∈ (drainEvents s es).2, ∃ m, a = Action.printLine m := by
  induction es with
  | nil => intro s a ha; simp [drainEvents] at ha
  | cons e rest ih =>
    intro s a ha
    have hacts := handleEvent_acts s e
    by_cases hterm : (handleEvent s e).1.status = LoopState.Terminated
    · rw [drainEvents, if_pos hterm] at ha
      rcases hacts with h0 | ⟨m, hm⟩
      · rw [h0] at ha; simp at ha
      · rw [hm] at ha; simp at ha; exact ⟨m, ha⟩
    · rw [drainEvents, if_neg hterm] at ha
      simp only [List.mem_append] at ha
      rcases ha with ha | ha
      · rcases hacts with h0 | ⟨m, hm⟩
        · rw [h0] at ha; simp at ha
        · rw [hm] at ha; simp at ha; exact ⟨m, ha⟩
      · exact ih _ a ha

theorem drainEvents_no_term (es : List Event) :
    ∀ (s : AppState) (n : Nat),
      s.status = LoopState.Running →
      s.cycle.k = n + 1 →
      s.data.blend = ((n % 9 : Nat) : Int) →
      (∀ e ∈ es, isTerminating e = false) →
      ((drainEvents s es).1.status = LoopState.Running ∧
       (drainEvents s es).1.cycle.k = (n + countCyclePresses es) + 1 ∧
       (drainEvents s es).1.data.blend = (((n + countCyclePresses es) % 9 : Nat) : Int)) := by
  induction es with
  | nil =>
    intro s n h1 h2 h3 _
    have hc0 : countCyclePresses ([] : List Event) = 0 := rfl
    rw [drainEvents, hc0, Nat.add_zero]
    exact ⟨h1, h2, h3⟩
  | cons e rest ih =>
    intro s n h1 h2 h3 h4
    have het : isTerminating e = false := h4 e (by simp)
    have h4r : ∀ x ∈ rest, isTerminating x = false := fun x hx => h4 x (by simp [hx])
    rcases hc : isCyclePress e with _ | _
    · have he : handleEvent s e = (s, []) := handleEvent_ignore s e hc het
      have hns : ¬(handleEvent s e).1.status = LoopState.Terminated := by
        rw [he]; rw [h1]; simp
      rw [drainEvents, if_neg hns, he]
      have harg : n + countCyclePresses (e :: rest) = n + countCyclePresses rest := by
        rw [countCyclePresses_cons, hc]; simp
      rw [harg]
      exact ih s n h1 h2 h3 h4r
    · obtain ⟨hk1, hb1, hst1, _⟩ := handleEvent_cycle_press s e hc
      have hns : ¬(handleEvent s e).1.status = LoopState.Terminated := by
        rw [hst1, h1]; simp
      rw [drainEvents, if_neg hns]
      have harg : n + countCyclePresses (e :: rest) = (n + 1) + countCyclePresses rest := by
        rw [countCyclePresses_cons, hc]; simp; omega
      rw [harg]
      exact ih (handleEvent s e).1 (n + 1) (by rw [hst1, h1]) (by rw [hk1, h2])
        (by rw [hb1, h2]) h4r

theorem handleEvent_blend_bound (s : AppState) (e : Event)
    (h1 : 0 ≤ s.data.blend) (h2 : s.data.blend ≤ 8) :
    0 ≤ (handleEvent s e).1.data.blend ∧ (handleEvent s e).1.data.blend ≤ 8 := by
  rcases hc : isCyclePress e with _ | _
  · rw [(handleEvent_not_press_state s e hc).2]; exact ⟨h1, h2⟩
  · obtain ⟨_, hb1, _, _⟩ := handleEvent_cycle_press s e hc
    rw [hb1]
    have hlt : s.cycle.k % 9 < 9 := Nat.mod_lt _ (by norm_num)
    omega

theorem drainEvents_blend_bound (es : List Event) :
    ∀ (s : AppState), 0 ≤ s.data.blend → s.data.blend ≤ 8 →
      0 ≤ (drainEvents s es).1.data.blend ∧ (drainEvents s es).1.data.blend ≤ 8 := by
  induction es with
  | nil => intro s h1 h2; rw [drainEvents]; exact ⟨h1, h2⟩
  | cons e rest ih =>
    intro s h1 h2
    have hb := handleEvent_blend_bound s e h1 h2
    by_cases hterm : (handleEvent s e).1.status = LoopState.Terminated
    · rw [drainEvents, if_pos hterm]; exact hb
    · rw [drainEvents, if_neg hterm]; exact ih _ hb.1 hb.2

theorem runLoop_blend_bound (batches : List (List Event)) :
    ∀ (s : AppState), 0 ≤ s.data.blend → s.data.blend ≤ 8 →
      0 ≤ (runLoop s batches).1.data.blend ∧ (runLoop s batches).1.data.blend ≤ 8 := by
  induction batches with
  | nil => intro s h1 h2; rw [runLoop]; exact ⟨h1, h2⟩
  | cons b rest ih =>
    intro s h1 h2
    by_cases hterm : s.status = LoopState.Terminated
    · rw [runLoop, if_pos hterm]; exact ⟨h1, h2⟩
    · rw [runLoop, if_neg hterm]
      have hi := drainEvents_blend_bound b s h1 h2
      rw [← runIteration_fst] at hi
      exact ih _ hi.1 hi.2

theorem handleEvent_fixedPart (s : AppState) (e : Event) :
    fixedPart (handleEvent s e).1.data = fixedPart s.data := by
  rcases hc : isCyclePress e with _ | _
  · rw [(handleEvent_not_press_state s e hc).2]
  · exact (handleEvent_cycle_press s e hc).2.2.2

theorem drainEvents_fixedPart (es : List Event) :
    ∀ (s : AppState), fixedPart (drainEvents s es).1.data = fixedPart s.data := by
  induction es with
  | nil => intro s; rw [drainEvents]
  | cons e rest ih =>
    intro s
    by_cases hterm : (handleEvent s e).1.status = LoopState.Terminated
    · rw [drainEvents, if_pos hterm, handleEvent_fixedPart]
    · rw [drainEvents, if_neg hterm]
      rw [show ((drainEvents (handleEvent s e).1 rest).1,
            (handleEvent s e).2 ++ (drainEvents (handleEvent s e).1 rest).2).1
          = (drainEvents (handleEvent s e).1 rest).1 from rfl]
      rw [ih, handleEvent_fixedPart]

theorem runLoop_fixedPart (batches : List (List Event)) :
    ∀ (s : AppState), fixedPart (runLoop s batches).1.data = fixedPart s.data := by
  induction batches with
  | nil => intro s; rw [runLoop]
  | cons b rest ih =>
    intro s
    by_cases hterm : s.status = LoopState.Terminated
    · rw [runLoop, if_pos hterm]
    · rw [runLoop, if_neg hterm]
      rw [show ((runLoop (runIteration s b).1 rest).1,
            (runIteration s b).2 ++ (runLoop (runIteration s b).1 rest).2).1
          = (runLoop (runIteration s b).1 rest).1 from rfl]
      rw [ih, runIteration_fst, drainEvents_fixedPart]

theorem drainEvents_hits_term (pre : List Event) :
    ∀ (s : AppState), s.status = LoopState.Running →
      (∀ x ∈ pre, isTerminating x = false) →
      ∀ (e : Event), isTerminating e = true → ∀ (post : List Event),
        (drainEvents s (pre ++ e :: post)).1.status = LoopState.Terminated ∧
        drainEvents s (pre ++ e :: post) = drainEvents s (pre ++ [e]) := by
  induction pre with
  | nil =>
    intro s _ _ e he post
    have hterm := handleEvent_term s e he
    have hst : (handleEvent s e).1.status = LoopState.Terminated := by rw [hterm]
    constructor
    · rw [List.nil_append, drainEvents, if_pos hst, hterm]
    · rw [List.nil_append, List.nil_append, drainEvents, if_pos hst,
        drainEvents, if_pos hst]
  | cons x pre ih =>
    intro s hs hpre e he post
    have hxt : isTerminating x = false := hpre x (by simp)
    have hprer : ∀ y ∈ pre, isTerminating y = false := fun y hy => hpre y (by simp [hy])
    have hxs : (handleEvent s x).1.status = LoopState.Running := by
      rcases hc : isCyclePress x with _ | _
      · rw [handleEvent_ignore s x hc hxt]; exact hs
      · rw [(handleEvent_cycle_press s x hc).2.2.1]; exact hs
    have hns : ¬(handleEvent s x).1.status = LoopState.Terminated := by rw [hxs]; simp
    have hrec := ih (handleEvent s x).1 hxs hprer e he post
    constructor
    · rw [List.cons_append, drainEvents, if_neg hns]
      exact hrec.1
    · rw [List.cons_append, List.cons_append, drainEvents, if_neg hns,
        drainEvents, if_neg hns, hrec.2]

theorem runLoop_no_term (batches : List (List Event)) :
    ∀ (s : AppState) (n : Nat),
      s.status = LoopState.Running →
      s.cycle.k = n + 1 →
      s.data.blend = ((n % 9 : Nat) : Int) →
      (∀ b ∈ batches, ∀ e ∈ b, isTerminating e = false) →
      ((runLoop s batches).1.status = LoopState.Running ∧
       (runLoop s batches).1.cycle.k = (n + countCyclePresses batches.join) + 1 ∧
       (runLoop s batches).1.data.blend =
         (((n + countCyclePresses batches.join) % 9 : Nat) : Int)) := by
  induction batches with
  | nil =>
    intro s n h1 h2 h3 _
    have hc0 : countCyclePresses (List.join ([] : List (List Event))) = 0 := rfl
    rw [runLoop, hc0, Nat.add_zero]
    exact ⟨h1, h2, h3⟩
  | cons b rest ih =>
    intro s n h1 h2 h3 h4
    have hb : ∀ e ∈ b, isTerminating e = false := h4 b (by simp)
    have hrest : ∀ x ∈ rest, ∀ e ∈ x, isTerminating e = false :=
      fun x hx => h4 x (by simp [hx])
    have hdr := drainEvents_no_term b s n h1 h2 h3 hb
    have hnt : ¬s.status = LoopState.Terminated := by rw [h1]; simp
    rw [runLoop, if_neg hnt]
    have hjoin : countCyclePresses (b :: rest).join =
        countCyclePresses b + countCyclePresses rest.join := by
      rw [show (b :: rest).join = b ++ rest.join from rfl, countCyclePresses_append]
    rw [show ((runLoop (runIteration s b).1 rest).1,
          (runIteration s b).2 ++ (runLoop (runIteration s b).1 rest).2).1
        = (runLoop (runIteration s b).1 rest).1 from rfl]
    have hrec := ih (runIteration s b).1 (n + countCyclePresses b)
      (by rw [runIteration_fst]; exact hdr.1)
      (by rw [runIteration_fst]; exact hdr.2.1)
      (by rw [runIteration_fst]; exact hdr.2.2) hrest
    have harg : n + countCyclePresses (b :: rest).join =
        (n + countCyclePresses b) + countCyclePresses rest.join := by
      rw [hjoin]; omega
    rw [harg]
    exact hrec

theorem startup_state (vbuf lena tint sampler out : Nat) :
    (startup vbuf lena tint sampler out).1.status = LoopState.Running ∧
    (startup vbuf lena tint sampler out).1.cycle.k = 1 ∧
    (startup vbuf lena tint sampler out).1.data.blend = 0 ∧
    fixedPart (startup vbuf lena tint sampler out).1.data =
      (vbuf, lena, sampler, tint, sampler, out) := ⟨rfl, rfl, rfl, rfl⟩

/-! The claims. -/

/-- C1: for every number `N` of cycle-key press events processed since
startup, the Frame Data Block's blend-mode field `PipeData.blend` equals
`N mod 9`: each press of the cycle key advances the selector exactly once
and writes the resulting index into the field, starting from index 0. -/
theorem blend_after_presses (vbuf lena tint sampler out : Nat)
    (batches : List (List Event))
    (h : ∀ b ∈ batches, ∀ e ∈ b, isTerminating e = false) :
    (runLoop (startup vbuf lena tint sampler out).1 batches).1.data.blend =
      (countCyclePresses batches.join : Int) % 9 := by
  have h0 := runLoop_no_term batches (startup vbuf lena tint sampler out).1 0
    rfl rfl rfl h
  rw [h0.2.2]
  omega

/-- Witness for C1: two cycle presses over two iterations (with ignored
events interleaved) leave the blend field at `2 % 9`. -/
theorem blend_after_presses_witness :
    (runLoop (startup 10 11 12 13 14).1
        [[Event.KeyboardInput ElementState.Pressed 5 (some VirtualKeyCode.B),
          Event.OtherEvent],
         [Event.KeyboardInput ElementState.Released 5 (some VirtualKeyCode.B),
          Event.KeyboardInput ElementState.Pressed 5 (some VirtualKeyCode.B)]]).1.data.blend =
      (countCyclePresses
        [[Event.KeyboardInput ElementState.Pressed 5 (some VirtualKeyCode.B),
          Event.OtherEvent],
         [Event.KeyboardInput ElementState.Released 5 (some VirtualKeyCode.B),
          Event.KeyboardInput ElementState.Pressed 5 (some VirtualKeyCode.B)]].join : Int) % 9 :=
  blend_after_presses 10 11 12 13 14 _ (by decide)

/-- C2: at every point after the Frame Data Block is constructed — after any
sequence of loop iterations followed by any partial drain of further input
events — its blend-mode field is one of the 9 indices `0..8` of the
selector's fixed sequence. -/
theorem blend_index_invariant (vbuf lena tint sampler out : Nat)
    (batches : List (List Event)) (events : List Event) :
    0 ≤ (drainEvents (runLoop (startup vbuf lena tint sampler out).1 batches).1
          events).1.data.blend ∧
    (drainEvents (runLoop (startup vbuf lena tint sampler out).1 batches).1
          events).1.data.blend ≤ 8 := by
  have h0 := (startup_state vbuf lena tint sampler out).2.2.1
  have hl := runLoop_blend_bound batches (startup vbuf lena tint sampler out).1
    (by rw [h0]) (by rw [h0]; norm_num)
  exact drainEvents_blend_bound events _ hl.1 hl.2

/-- Witness for C2: a concrete run with presses and a close event. -/
theorem blend_index_invariant_witness :
    0 ≤ (drainEvents (runLoop (startup 0 1 2 3 4).1
          [[Event.KeyboardInput ElementState.Pressed 5 (some VirtualKeyCode.B)]]).1
          [Event.Closed]).1.data.blend ∧
    (drainEvents (runLoop (startup 0 1 2 3 4).1
          [[Event.KeyboardInput ElementState.Pressed 5 (some VirtualKeyCode.B)]]).1
          [Event.Closed]).1.data.blend ≤ 8 :=
  blend_index_invariant 0 1 2 3 4 _ _

/-- C3: the blend-mode selector is cyclic over the canonical 9-entry list:
for every `i < 9`, the value yielded by the `(i+1)`-th call to `next` from a
fresh cycle is the pair at position `i` of `blends`, and after 9 calls the
cursor points back at the initial pair (the value of the 10th call equals
that of the 1st). -/
theorem blends_cycle_canonical (i : Nat) (h : i < 9) :
    ((CycleIter.advanceN { k := 0 } i).next.1 = blends.getD i (0, "") ∧
     blends.length = 9) ∧
    (CycleIter.advanceN { k := 0 } 9).next.1 = (CycleIter.mk 0).next.1 := by
  refine ⟨⟨?_, rfl⟩, rfl⟩
  interval_cases i <;> rfl

/-- Witness for C3 at `i = 4`: the fifth call yields `(4, "Multiply")`. -/
theorem blends_cycle_canonical_witness :
    ((CycleIter.advanceN { k := 0 } 4).next.1 = blends.getD 4 (0, "") ∧
     blends.length = 9) ∧
    (CycleIter.advanceN { k := 0 } 9).next.1 = (CycleIter.mk 0).next.1 :=
  blends_cycle_canonical 4 (by norm_num)

/-- C8: across all loop iterations (and any partial drain of further
events), only the blend field of the Frame Data Block mutates: the vertex
buffer, both texture views, both samplers and the output target keep the
references established at startup (both samplers being the single sampler
handle, as in the source). -/
theorem only_blend_mutates (vbuf lena tint sampler out : Nat)
    (batches : List (List Event)) (events : List Event) :
    fixedPart (drainEvents (runLoop (startup vbuf lena tint sampler out).1
        batches).1 events).1.data =
      (vbuf, lena, sampler, tint, sampler, out) := by
  rw [drainEvents_fixedPart, runLoop_fixedPart]
  exact (startup_state vbuf lena tint sampler out).2.2.2

/-- Witness for C8: a concrete run keeps all non-blend fields. -/
theorem only_blend_mutates_witness :
    fixedPart (drainEvents (runLoop (startup 20 21 22 23 24).1
        [[Event.KeyboardInput ElementState.Pressed 5 (some VirtualKeyCode.B)],
         [Event.OtherEvent]]).1
        [Event.KeyboardInput ElementState.Pressed 5 (some VirtualKeyCode.B)]).1.data =
      (20, 21, 23, 22, 23, 24) :=
  only_blend_mutates 20 21 22 23 24 _ _

/-- C10: before the render loop begins and before any input event is
processed, exactly one diagnostic line is printed, naming the initial blend
mode's label "Screen": the selector's first element is consumed once at
construction time (the cursor stands at 1 and the blend field at index 0),
and each subsequent cycle press likewise emits exactly one line. -/
theorem startup_prints_initial_label (vbuf lena tint sampler out : Nat) :
    (startup vbuf lena tint sampler out).2 =
      [Action.printLine (diagLine "Screen")] ∧
    diagLine "Screen" = "Using \x27Screen\x27 blend equation" ∧
    (startup vbuf lena tint sampler out).1.cycle.k = 1 ∧
    (startup vbuf lena tint sampler out).1.data.blend = 0 ∧
    (handleEvent (startup vbuf lena tint sampler out).1
        (Event.KeyboardInput ElementState.Pressed 5 (some VirtualKeyCode.B))).2 =
      [Action.printLine (diagLine "Dodge")] := ⟨rfl, rfl, rfl, rfl, rfl⟩

/-- Witness for C10 at concrete startup handles. -/
theorem startup_prints_initial_label_witness :
    (startup 0 1 2 3 4).2 = [Action.printLine (diagLine "Screen")] ∧
    diagLine "Screen" = "Using \x27Screen\x27 blend equation" ∧
    (startup 0 1 2 3 4).1.cycle.k = 1 ∧
    (startup 0 1 2 3 4).1.data.blend = 0 ∧
    (handleEvent (startup 0 1 2 3 4).1
        (Event.KeyboardInput ElementState.Pressed 5 (some VirtualKeyCode.B))).2 =
      [Action.printLine (diagLine "Dodge")] :=
  startup_prints_initial_label 0 1 2 3 4

/-- C4: the quad geometry is exactly the six fixed vertices, forming two
counter-clockwise triangles that jointly cover the square
`[-1,1] × [-1,1]`, with the texture-space Y inverted relative to
position-space Y at all four corners; the data is a fixed constant, so
every construction of it is identical. -/
theorem vertex_data_quad (x y : ℚ)
    (hx1 : -1 ≤ x) (hx2 : x ≤ 1) (hy1 : -1 ≤ y) (hy2 : y ≤ 1) :
    vertex_data =
      [ Vertex.new (-1, -1) (0, 1), Vertex.new (1, -1) (1, 1),
        Vertex.new (1, 1) (1, 0), Vertex.new (-1, -1) (0, 1),
        Vertex.new (1, 1) (1, 0), Vertex.new (-1, 1) (0, 0) ] ∧
    vertex_data.length = 6 ∧
    ccwTri (vAt 0).pos (vAt 1).pos (vAt 2).pos ∧
    ccwTri (vAt 3).pos (vAt 4).pos (vAt 5).pos ∧
    (∀ v ∈ vertex_data,
      (v.pos = (-1, -1) → v.uv = (0, 1)) ∧
      (v.pos = (1, -1) → v.uv = (1, 1)) ∧
      (v.pos = (1, 1) → v.uv = (1, 0)) ∧
      (v.pos = (-1, 1) → v.uv = (0, 0))) ∧
    (inTri (vAt 0).pos (vAt 1).pos (vAt 2).pos (x, y) ∨
     inTri (vAt 3).pos (vAt 4).pos (vAt 5).pos (x, y)) := by
  refine ⟨rfl, rfl, ?_, ?_, ?_, ?_⟩
  · show (0 : ℚ) < cross2 (-1, -1) (1, -1) (1, 1)
    norm_num [cross2]
  · show (0 : ℚ) < cross2 (-1, -1) (1, 1) (-1, 1)
    norm_num [cross2]
  · intro v hv
    fin_cases hv <;> norm_num [Vertex.new, Prod.ext_iff]
  · rcases le_total y x with hxy | hxy
    · left
      show inTri (-1, -1) (1, -1) (1, 1) (x, y)
      refine ⟨?_, ?_, ?_⟩ <;> simp [cross2] <;> linarith
    · right
      show inTri (-1, -1) (1, 1) (-1, 1) (x, y)
      refine ⟨?_, ?_, ?_⟩ <;> simp [cross2] <;> linarith

/-- Witness for C4 at the interior point `(0, 0)`. -/
theorem vertex_data_quad_witness :
    vertex_data =
      [ Vertex.new (-1, -1) (0, 1), Vertex.new (1, -1) (1, 1),
        Vertex.new (1, 1) (1, 0), Vertex.new (-1, -1) (0, 1),
        Vertex.new (1, 1) (1, 0), Vertex.new (-1, 1) (0, 0) ] ∧
    vertex_data.length = 6 ∧
    ccwTri (vAt 0).pos (vAt 1).pos (vAt 2).pos ∧
    ccwTri (vAt 3).pos (vAt 4).pos (vAt 5).pos ∧
    (∀ v ∈ vertex_data,
      (v.pos = (-1, -1) → v.uv = (0, 1)) ∧
      (v.pos = (1, -1) → v.uv = (1, 1)) ∧
      (v.pos = (1, 1) → v.uv = (1, 0)) ∧
      (v.pos = (-1, 1) → v.uv = (0, 0))) ∧
    (inTri (vAt 0).pos (vAt 1).pos (vAt 2).pos (0, 0) ∨
     inTri (vAt 3).pos (vAt 4).pos (vAt 5).pos (0, 0)) :=
  vertex_data_quad 0 0 (by norm_num) (by norm_num) (by norm_num) (by norm_num)

/-- C5: if a terminating event (exit key or close request) is observed at
any position while draining an iteration's pending events, the loop state
becomes Terminated, the iteration performs none of its clear, draw, submit
or present calls (its trace holds only the encoder reset and diagnostic
prints), the remaining drained events are not even processed, and no
further iteration performs anything. -/
theorem close_event_halts_iteration (s : AppState)
    (hs : s.status = LoopState.Running)
    (pre post : List Event) (e : Event)
    (hpre : ∀ x ∈ pre, isTerminating x = false)
    (he : isTerminating e = true)
    (batches : List (List Event)) :
    (runIteration s (pre ++ e :: post)).1.status = LoopState.Terminated ∧
    (∀ a ∈ (runIteration s (pre ++ e :: post)).2,
      a = Action.reset ∨ ∃ m, a = Action.printLine m) ∧
    runIteration s (pre ++ e :: post) = runIteration s (pre ++ [e]) ∧
    runLoop (runIteration s (pre ++ e :: post)).1 batches =
      ((runIteration s (pre ++ e :: post)).1, []) := by
  have hd := drainEvents_hits_term pre s hs hpre e he post
  have hiter := runIteration_of_term s (pre ++ e :: post) hd.1
  refine ⟨?_, ?_, ?_, ?_⟩
  · rw [runIteration_fst]; exact hd.1
  · intro a ha
    rw [hiter] at ha
    have ha2 : a = Action.reset ∨ a ∈ (drainEvents s (pre ++ e :: post)).2 := by
      simpa using ha
    rcases ha2 with rfl | ha2
    · exact Or.inl rfl
    · exact Or.inr (drainEvents_acts _ _ a ha2)
  · unfold runIteration
    rw [hd.2]
  · exact runLoop_of_terminated _ (by rw [runIteration_fst]; exact hd.1) batches

/-- Witness for C5: a close request after an ignored event, followed by an
unprocessed cycle press, with one more pending batch. -/
theorem close_event_halts_iteration_witness :
    (runIteration (startup 0 1 2 3 4).1
        ([Event.OtherEvent] ++ Event.Closed ::
          [Event.KeyboardInput ElementState.Pressed 5 (some VirtualKeyCode.B)])).1.status =
      LoopState.Terminated ∧
    (∀ a ∈ (runIteration (startup 0 1 2 3 4).1
        ([Event.OtherEvent] ++ Event.Closed ::
          [Event.KeyboardInput ElementState.Pressed 5 (some VirtualKeyCode.B)])).2,
      a = Action.reset ∨ ∃ m, a = Action.printLine m) ∧
    runIteration (startup 0 1 2 3 4).1
        ([Event.OtherEvent] ++ Event.Closed ::
          [Event.KeyboardInput ElementState.Pressed 5 (some VirtualKeyCode.B)]) =
      runIteration (startup 0 1 2 3 4).1 ([Event.OtherEvent] ++ [Event.Closed]) ∧
    runLoop (runIteration (startup 0 1 2 3 4).1
        ([Event.OtherEvent] ++ Event.Closed ::
          [Event.KeyboardInput ElementState.Pressed 5 (some VirtualKeyCode.B)])).1
        [[Event.OtherEvent]] =
      ((runIteration (startup 0 1 2 3 4).1
        ([Event.OtherEvent] ++ Event.Closed ::
          [Event.KeyboardInput ElementState.Pressed 5 (some VirtualKeyCode.B)])).1, []) :=
  close_event_halts_iteration (startup 0 1 2 3 4).1 rfl
    [Event.OtherEvent] [Event.KeyboardInput ElementState.Pressed 5 (some VirtualKeyCode.B)]
    Event.Closed (by decide) rfl [[Event.OtherEvent]]

/-- A keyboard event releasing (not pressing) the Escape key. -/
def relEscEvent : Event :=
  Event.KeyboardInput ElementState.Released 1 (some VirtualKeyCode.Escape)

/-- The app state right after startup with concrete handles. -/
def sampleState : AppState := (startup 0 1 2 3 4).1

/-- C6 counterexample: a release (non-press) of the exit key is NOT
ignored: the source's `break` arm matches `KeyboardInput(_, _, Some(Escape))`
with a wildcard element state, so the released Escape key also transitions
the loop to Terminated, changing the state. -/
theorem escape_release_terminates :
    relEscEvent =
      Event.KeyboardInput ElementState.Released 1 (some VirtualKeyCode.Escape) ∧
    (handleEvent sampleState relEscEvent).1.status = LoopState.Terminated ∧
    (handleEvent sampleState relEscEvent).1 ≠ sampleState := by
  refine ⟨rfl, rfl, ?_⟩
  decide

/-- C6 (amended): the loop transitions to Terminated exactly when a
keyboard event carrying the exit key code — with any element state, press
or release — or a close signal is observed; every event that is neither
such an exit/close event nor a cycle-key press is ignored and causes no
state change. -/
theorem exit_event_any_state_terminates (s : AppState)
    (hs : s.status = LoopState.Running) (e : Event) :
    ((handleEvent s e).1.status = LoopState.Terminated ↔ isTerminating e = true) ∧
    (isTerminating e = false → isCyclePress e = false → handleEvent s e = (s, [])) := by
  constructor
  · rcases ht : isTerminating e with _ | _
    · rcases hc : isCyclePress e with _ | _
      · rw [handleEvent_ignore s e hc ht]
        simp [hs]
      · rw [(handleEvent_cycle_press s e hc).2.2.1]
        simp [hs]
    · rw [handleEvent_term s e ht]
      simp
  · exact fun ht hc => handleEvent_ignore s e hc ht

/-- Witness for C6 (amended) on the post-startup state and an ignored
event. -/
theorem exit_event_any_state_terminates_witness :
    ((handleEvent sampleState Event.OtherEvent).1.status = LoopState.Terminated ↔
      isTerminating Event.OtherEvent = true) ∧
    (isTerminating Event.OtherEvent = false → isCyclePress Event.OtherEvent = false →
      handleEvent sampleState Event.OtherEvent = (sampleState, [])) :=
  exit_event_any_state_terminates sampleState rfl Event.OtherEvent

/-- C7: an iteration starting in Running resets the encoder first, then
drains the pending events in delivery order; if still Running afterwards it
records the clear of the output target to `[0,0,0,0]`, the draw, the
submit, the present (buffer swap) and the per-frame cleanup, in this order;
if the drain terminated the loop, none of those frame actions appears. -/
theorem iteration_sequence_running (s : AppState)
    (hs : s.status = LoopState.Running) (events : List Event) :
    ((drainEvents s events).1.status = LoopState.Running →
      runIteration s events =
        ((drainEvents s events).1,
         Action.reset :: (drainEvents s events).2 ++
           [Action.clearTarget (drainEvents s events).1.data.out [0, 0, 0, 0],
            Action.drawPipeline, Action.submit, Action.swapBuffers,
            Action.cleanup])) ∧
    ((drainEvents s events).1.status = LoopState.Terminated →
      runIteration s events =
        ((drainEvents s events).1, Action.reset :: (drainEvents s events).2)) := by
  constructor
  · intro h
    rw [runIteration_of_run s events h]
    rfl
  · intro h
    exact runIteration_of_term s events h

/-- Witness for C7: one cycle press then an ignored event; the iteration
stays Running and issues the full frame-action tail. -/
theorem iteration_sequence_running_witness :
    ((drainEvents (startup 0 1 2 3 4).1
        [Event.KeyboardInput ElementState.Pressed 5 (some VirtualKeyCode.B),
         Event.OtherEvent]).1.status = LoopState.Running →
      runIteration (startup 0 1 2 3 4).1
          [Event.KeyboardInput ElementState.Pressed 5 (some VirtualKeyCode.B),
           Event.OtherEvent] =
        ((drainEvents (startup 0 1 2 3 4).1
            [Event.KeyboardInput ElementState.Pressed 5 (some VirtualKeyCode.B),
             Event.OtherEvent]).1,
         Action.reset :: (drainEvents (startup 0 1 2 3 4).1
            [Event.KeyboardInput ElementState.Pressed 5 (some VirtualKeyCode.B),
             Event.OtherEvent]).2 ++
           [Action.clearTarget (drainEvents (startup 0 1 2 3 4).1
              [Event.KeyboardInput ElementState.Pressed 5 (some VirtualKeyCode.B),
               Event.OtherEvent]).1.data.out [0, 0, 0, 0],
            Action.drawPipeline, Action.submit, Action.swapBuffers,
            Action.cleanup])) ∧
    ((drainEvents (startup 0 1 2 3 4).1
        [Event.KeyboardInput ElementState.Pressed 5 (some VirtualKeyCode.B),
         Event.OtherEvent]).1.status = LoopState.Terminated →
      runIteration (startup 0 1 2 3 4).1
          [Event.KeyboardInput ElementState.Pressed 5 (some VirtualKeyCode.B),
           Event.OtherEvent] =
        ((drainEvents (startup 0 1 2 3 4).1
            [Event.KeyboardInput ElementState.Pressed 5 (some VirtualKeyCode.B),
             Event.OtherEvent]).1,
         Action.reset :: (drainEvents (startup 0 1 2 3 4).1
            [Event.KeyboardInput ElementState.Pressed 5 (some VirtualKeyCode.B),
             Event.OtherEvent]).2)) :=
  iteration_sequence_running (startup 0 1 2 3 4).1 rfl
    [Event.KeyboardInput ElementState.Pressed 5 (some VirtualKeyCode.B),
     Event.OtherEvent]

/-- A factory whose device rejects the texture creation/upload. -/
def failFactory : Factory :=
  { nextHandle := 0, decodeOk := true, createOk := false, viewOk := true }

/-- A factory on which every step of `load_texture` succeeds. -/
def okFactory : Factory :=
  { nextHandle := 0, decodeOk := true, createOk := true, viewOk := true }

/-- C9 counterexample: when the device rejects the texture creation,
`load_texture` aborts by panicking inside the function (the `.unwrap()` on
`create_new_texture_with_data`) — it does not return its declared
`Result` error value, so the caller never observes an error to treat as
fatal. -/
theorem load_texture_panics_counterexample :
    load_texture failFactory [] = LoadOutcome.panicked "texture creation failed" ∧
    (load_texture failFactory []).isErr = false := ⟨rfl, rfl⟩

/-- C9 (amended): `load_texture` never returns its declared error value:
when the image decode, the device-side texture creation/upload, or the view
derivation fails, it aborts immediately with a diagnostic (a panic inside
the function), which is fatal for demo startup; on success it returns an
independent shader-readable view per call, with distinct handles across
successive calls. -/
theorem load_texture_abort_behavior (f : Factory) (d : List Nat) :
    (load_texture f d).isErr = false ∧
    ((f.decodeOk = false ∨ f.createOk = false ∨ f.viewOk = false) →
      ∃ m, load_texture f d = LoadOutcome.panicked m) ∧
    (f.decodeOk = true → f.createOk = true → f.viewOk = true →
      load_texture f d =
        LoadOutcome.ok (f.nextHandle + 1, { f with nextHandle := f.nextHandle + 2 })) ∧
    (f.decodeOk = true → f.createOk = true → f.viewOk = true →
      ∃ v1 f1 v2 f2, load_texture f d = LoadOutcome.ok (v1, f1) ∧
        load_texture f1 d = LoadOutcome.ok (v2, f2) ∧ v1 ≠ v2) := by
  refine ⟨?_, ?_, ?_, ?_⟩
  · rcases hd : f.decodeOk with _ | _ <;> rcases hc : f.createOk with _ | _ <;>
      rcases hv : f.viewOk with _ | _ <;>
        simp [load_texture, LoadOutcome.isErr, hd, hc, hv]
  · intro h
    rcases hd : f.decodeOk with _ | _ <;> rcases hc : f.createOk with _ | _ <;>
      rcases hv : f.viewOk with _ | _ <;>
        simp [load_texture, hd, hc, hv] <;> simp [hd, hc, hv] at h
  · intro h1 h2 h3
    simp [load_texture, h1, h2, h3]
  · intro h1 h2 h3
    have e1 : load_texture f d =
        LoadOutcome.ok (f.nextHandle + 1, { f with nextHandle := f.nextHandle + 2 }) := by
      simp [load_texture, h1, h2, h3]
    have e2 : load_texture { f with nextHandle := f.nextHandle + 2 } d =
        LoadOutcome.ok (f.nextHandle + 2 + 1,
          { f with nextHandle := f.nextHandle + 2 + 2 }) := by
      simp [load_texture, h1, h2, h3]
    exact ⟨_, _, _, _, e1, e2, by omega⟩

/-- Witness for C9 (amended) on the all-succeeding factory. -/
theorem load_texture_abort_behavior_witness :
    (load_texture okFactory [7]).isErr = false ∧
    ((okFactory.decodeOk = false ∨ okFactory.createOk = false ∨
        okFactory.viewOk = false) →
      ∃ m, load_texture okFactory [7] = LoadOutcome.panicked m) ∧
    (okFactory.decodeOk = true → okFactory.createOk = true →
      okFactory.viewOk = true →
      load_texture okFactory [7] =
        LoadOutcome.ok (okFactory.nextHandle + 1,
          { okFactory with nextHandle := okFactory.nextHandle + 2 })) ∧
    (okFactory.decodeOk = true → okFactory.createOk = true →
      okFactory.viewOk = true →
      ∃ v1 f1 v2 f2, load_texture okFactory [7] = LoadOutcome.ok (v1, f1) ∧
        load_texture f1 [7] = LoadOutcome.ok (v2, f2) ∧ v1 ≠ v2) :=
  load_texture_abort_behavior okFactory [7]

end Blend
